import Mathlib

/-!
Verification of the nestkick project generator core against its
natural-language specification.

The development shallowly embeds the TypeScript sources:
  - `src/types/index.ts`              (configuration record),
  - the validation module (`validateProjectName`, zod schema),
  - the template cache (`TemplateCache`: `getCacheKey`, `generateHash`,
    `generateDataHash`, `getCachedTemplate`, `setCachedTemplate`),
  - the template manager (`renderTemplate`, `shouldSkipFile`,
    `copyDirectoryRecursive`, `mergePackageJson`,
    `generateProjectStructure`),
  - the error handler (`trackCreatedFile`, `trackCreatedDir`,
    `performRollback`, `handleError`),
  - the progress indicator (`runSteps`).

File systems are modelled explicitly: template sources as association
lists from path strings to file bytes, and the mutable project-side file
system (for rollback) as a finite set of component-list paths.
-/

set_option autoImplicit false

namespace Nestkick

/-! ## Configuration record (src/types/index.ts) -/

inductive ORM where
  | prisma
  | typeorm
  | sequelize
deriving DecidableEq, Repr

inductive Database where
  | postgres
  | mysql
  | sqlite
  | mongodb
deriving DecidableEq, Repr

inductive PackageManager where
  | npm
  | yarn
  | pnpm
deriving DecidableEq, Repr

def ORM.toStr : ORM → String
  | .prisma => "prisma"
  | .typeorm => "typeorm"
  | .sequelize => "sequelize"

def Database.toStr : Database → String
  | .postgres => "postgres"
  | .mysql => "mysql"
  | .sqlite => "sqlite"
  | .mongodb => "mongodb"

def PackageManager.toStr : PackageManager → String
  | .npm => "npm"
  | .yarn => "yarn"
  | .pnpm => "pnpm"

/-- `TemplateData` from src/types/index.ts: the immutable configuration
record consumed by the renderer, cache, and assembler. -/
structure TemplateData where
  projectName : String
  orm : ORM
  database : Database
  packageManager : PackageManager
  docker : Bool
  testing : Bool
deriving DecidableEq, Repr

/-! ## Project-name validation (zod schema in the validation module) -/

/-- One character of the regex class `[a-z0-9-]`. -/
def isProjectNameChar (c : Char) : Bool :=
  (decide ('a' ≤ c) && decide (c ≤ 'z'))
    || (decide ('0' ≤ c) && decide (c ≤ '9'))
    || (c == '-')

/-- `String.startsWith`, expressed over character lists so that concrete
instances reduce inside the kernel. -/
def strStartsWith (s pat : String) : Bool := pat.data.isPrefixOf s.data

/-- `String.endsWith`, expressed over character lists. -/
def strEndsWith (s pat : String) : Bool := pat.data.isSuffixOf s.data

/-- Embedding of `validateProjectName`: the zod chain
`min(1).max(50).regex(/^[a-z0-9-]+$/).refine(no leading or trailing hyphen)`;
`parse` throws when any rule fails, so the result is the conjunction of all
four rules.  We return the `isValid` field of the TypeScript
`ValidationResult` (the `error` string carries no further information). -/
def validateProjectName (s : String) : Bool :=
  decide (1 ≤ s.length) && decide (s.length ≤ 50)
    && s.toList.all isProjectNameChar
    && !(strStartsWith s "-") && !(strEndsWith s "-")

/-! ## Template cache (TemplateCache in the template-cache module) -/

/-- First-match lookup in an association list, mirroring `Map.get` /
"does this cache file exist, read it". -/
def alookup {α : Type} (k : String) : List (String × α) → Option α
  | [] => none
  | (k1, v) :: rest => if k1 = k then some v else alookup k rest

/-- Model of `generateHash` (`crypto.createHash('sha256')...digest('hex')`).
SHA-256 itself is not reproduced; the model keeps exactly the properties the
code relies on: the digest is a deterministic function of the content, and
distinct contents yield distinct digests (collision-freedom, which is the
working assumption behind hash-validated caching). -/
def generateHash (content : String) : String :=
  "sha256:" ++ content

/-- Model of `JSON.stringify(data, Object.keys(data).sort())`: the
configuration record serialized with its keys in sorted order
(database, docker, orm, packageManager, projectName, testing). -/
def stringifySortedKeys (d : TemplateData) : String :=
  "\x7b\"database\":\"" ++ d.database.toStr
    ++ "\",\"docker\":" ++ (if d.docker then "true" else "false")
    ++ ",\"orm\":\"" ++ d.orm.toStr
    ++ "\",\"packageManager\":\"" ++ d.packageManager.toStr
    ++ "\",\"projectName\":\"" ++ d.projectName
    ++ "\",\"testing\":" ++ (if d.testing then "true" else "false")
    ++ "\x7d"

/-- `generateDataHash`: hash of the canonicalized configuration record. -/
def generateDataHash (d : TemplateData) : String :=
  generateHash (stringifySortedKeys d)

/-- The per-character action of `templatePath.replace(/[/\\:]/g, '_')`. -/
def safeChar (c : Char) : Char :=
  if c == '/' || c == '\\' || c == ':' then '_' else c

/-- `getCacheKey`: sanitized template path concatenated with the
configuration hash.  (`replace` is expressed as a character map over the
string's character list.) -/
def getCacheKey (templatePath : String) (data : TemplateData) : String :=
  String.mk (templatePath.data.map safeChar) ++ "_" ++ generateDataHash data

/-- `path.join` restricted to the two-argument, plain-relative case the
embedded code uses. -/
def joinPath (a b : String) : String := a ++ "/" ++ b

/-- A cache entry (`CachedTemplate`).  The `timestamp` field is omitted:
the source uses it only for age-based cleanup, never in `get`/`set`. -/
structure CachedTemplate where
  content : String
  hash : String
  templatePath : String
  dataHash : String
deriving DecidableEq, Repr

/-- The two cache tiers: the in-memory `Map` and the on-disk mirror
(`cacheDir/<key>.json` files).  Writes are modelled by consing, which has
the same `alookup` semantics as an in-place update (newest entry wins). -/
structure CacheState where
  mem : List (String × CachedTemplate)
  disk : List (String × CachedTemplate)
deriving DecidableEq, Repr

/-- The read-only template source: full path string to raw bytes. -/
abbrev TemplateFS := List (String × String)

/-- `path.join(process.cwd(), 'templates', templatePath)` — the location
the cache reads to validate and hash templates. -/
def templatesRoot (cwd : String) (templatePath : String) : String :=
  joinPath (joinPath cwd "templates") templatePath

/-- Embedding of `getCachedTemplate`: the in-memory tier is consulted
first and returns its content without any validation; only on an
in-memory miss is the on-disk tier consulted, and an on-disk entry is
returned (and promoted to the in-memory tier) only when its stored hash
equals the hash of the template's current bytes at the cache's template
root.  A missing template file or hash mismatch is a miss. -/
def getCachedTemplate (tfs : TemplateFS) (cwd : String) (st : CacheState)
    (templatePath : String) (data : TemplateData) :
    Option String × CacheState :=
  let cacheKey := getCacheKey templatePath data
  match alookup cacheKey st.mem with
  | some cached => (some cached.content, st)
  | none =>
    match alookup cacheKey st.disk with
    | some cachedData =>
      match alookup (templatesRoot cwd templatePath) tfs with
      | some templateContent =>
        if cachedData.hash = generateHash templateContent then
          (some cachedData.content,
            { st with mem := (cacheKey, cachedData) :: st.mem })
        else (none, st)
      | none => (none, st)
    | none => (none, st)

/-- Embedding of `setCachedTemplate`: when the template file exists at the
cache's template root, an entry holding the rendered content, the hash of
the template's current bytes and the configuration hash is written to both
tiers; otherwise nothing is written at all. -/
def setCachedTemplate (tfs : TemplateFS) (cwd : String) (st : CacheState)
    (templatePath : String) (data : TemplateData) (content : String) :
    CacheState :=
  let cacheKey := getCacheKey templatePath data
  match alookup (templatesRoot cwd templatePath) tfs with
  | some templateContent =>
    let entry : CachedTemplate :=
      { content := content
        hash := generateHash templateContent
        templatePath := templatePath
        dataHash := generateDataHash data }
    { mem := (cacheKey, entry) :: st.mem
      disk := (cacheKey, entry) :: st.disk }
  | none => st

/-! ## Template renderer (`renderTemplate` in the template manager) -/

/-- Embedding of `renderTemplate`.  `render` abstracts `ejs.render` (a pure
function of template bytes and configuration); `basePath` is the manager's
`templateBasePath`.  The extra `Bool` in the result records whether the call
was served from the cache (`true`: the early `return cachedContent` was
taken, which in the source requires the cached string to be truthy, i.e.
present and non-empty).  On a falsy cache answer the template is re-read
and re-rendered and the result is stored via `setCachedTemplate`. -/
def renderTemplate (render : String → TemplateData → String)
    (basePath cwd : String) (tfs : TemplateFS) (st : CacheState)
    (templatePath : String) (data : TemplateData) :
    Except String (String × Bool × CacheState) :=
  match alookup (joinPath basePath templatePath) tfs with
  | none => .error ("Template not found: " ++ templatePath)
  | some template =>
    match getCachedTemplate tfs cwd st templatePath data with
    | (some cachedContent, st1) =>
      if cachedContent = "" then
        let renderedContent := render template data
        .ok (renderedContent, false,
          setCachedTemplate tfs cwd st1 templatePath data renderedContent)
      else
        .ok (cachedContent, true, st1)
    | (none, st1) =>
      let renderedContent := render template data
      .ok (renderedContent, false,
        setCachedTemplate tfs cwd st1 templatePath data renderedContent)

/-! ## Rollback ledger (ErrorHandler in src/src/utils/error-handler.ts)

The project-side file system is a finite set of paths, each a list of
components; `fs.remove` is recursive (`rm -rf`), so removing `p` removes
every path having `p` as a prefix.  `fs.remove` failures (permissions and
the like) are modelled by a predicate `bad` marking the paths whose
removal throws. -/

abbrev FPath := List String

abbrev ProjFS := List FPath

def pathExistsF (fs : ProjFS) (p : FPath) : Bool := decide (p ∈ fs)

/-- `fs.remove p`: removes `p` and everything below it. -/
def removePath (fs : ProjFS) (p : FPath) : ProjFS :=
  fs.filter (fun q => !(decide (p <+: q)))

/-- `fs.readdir root`: the direct children of `root` present in `fs`. -/
def readdirF (fs : ProjFS) (root : FPath) : List FPath :=
  fs.filter (fun q => decide (root <+: q) && decide (q.length = root.length + 1))

/-- One `RollbackInfo` ledger entry; `timestamp` is omitted (never read). -/
structure RollbackInfo where
  projectPath : FPath
  createdFiles : List FPath
  createdDirs : List FPath
deriving DecidableEq, Repr

/-- `addRollbackPoint`: pushes a fresh empty entry on the stack. -/
def addRollbackPoint (projectPath : FPath) (stack : List RollbackInfo) :
    List RollbackInfo :=
  stack ++ [⟨projectPath, [], []⟩]

/-- `trackCreatedFile`: appends to the most recent entry; no-op on an
empty stack. -/
def trackCreatedFile (p : FPath) : List RollbackInfo → List RollbackInfo
  | [] => []
  | [e] => [{ e with createdFiles := e.createdFiles ++ [p] }]
  | e :: rest => e :: trackCreatedFile p rest

/-- `trackCreatedDir`: appends to the most recent entry; no-op on an
empty stack. -/
def trackCreatedDir (p : FPath) : List RollbackInfo → List RollbackInfo
  | [] => []
  | [e] => [{ e with createdDirs := e.createdDirs ++ [p] }]
  | e :: rest => e :: trackCreatedDir p rest

/-- One `for` loop of removals inside `performRollback`'s `try` block:
paths are taken in order; an existing path is removed unless its removal
throws (`bad`), in which case the loop is abandoned with the error flag
set (the enclosing `try` covers the whole entry). -/
def removeSeq (bad : FPath → Bool) : ProjFS → List FPath → ProjFS × Bool
  | fs, [] => (fs, false)
  | fs, p :: rest =>
    if pathExistsF fs p then
      if bad p then (fs, true)
      else removeSeq bad (removePath fs p) rest
    else removeSeq bad fs rest

/-- The final phase of one entry: remove the project root only if it
exists and `readdir` finds it empty. -/
def rollbackEntryRoot (bad : FPath → Bool) (fs : ProjFS) (root : FPath) :
    ProjFS × Bool :=
  if pathExistsF fs root then
    if (readdirF fs root).length = 0 then
      if bad root then (fs, true) else (removePath fs root, false)
    else (fs, false)
  else (fs, false)

/-- Processing of one ledger entry inside `performRollback`: tracked files
in order, then tracked directories in reverse creation order, then the
project root; the single `try`/`catch` around all three phases means the
first throwing removal abandons the rest of this entry (the error is
logged and swallowed). -/
def rollbackOne (bad : FPath → Bool) (fs : ProjFS) (e : RollbackInfo) :
    ProjFS × Bool :=
  match removeSeq bad fs e.createdFiles with
  | (fs1, true) => (fs1, true)
  | (fs1, false) =>
    match removeSeq bad fs1 e.createdDirs.reverse with
    | (fs2, true) => (fs2, true)
    | (fs2, false) => rollbackEntryRoot bad fs2 e.projectPath

/-- `performRollback`: entries are processed most-recent-first
(`rollbackStack.reverse()`); each entry's failure is caught and the loop
continues with the next entry; afterwards the stack is cleared (callers
of the model pair the returned file system with an empty stack). -/
def performRollback (bad : FPath → Bool) (fs : ProjFS)
    (stack : List RollbackInfo) : ProjFS :=
  stack.reverse.foldl (fun f e => (rollbackOne bad f e).1) fs

/-- `handleError`: logs, performs the rollback, prints guidance; the only
file-system effect is the rollback itself, and it never throws. -/
def handleError (bad : FPath → Bool) (fs : ProjFS)
    (stack : List RollbackInfo) : ProjFS :=
  performRollback bad fs stack

/-- The failure-free removal environment (no `fs.remove` call throws). -/
def noFailure : FPath → Bool := fun _ => false

/-- The two tracking calls the assembler issues between a checkpoint and a
rollback. -/
inductive TrackOp where
  | file (p : FPath)
  | dir (p : FPath)

/-- A sequence of `trackCreatedFile`/`trackCreatedDir` calls applied to a
ledger stack. -/
def applyOps : List TrackOp → List RollbackInfo → List RollbackInfo
  | [], stack => stack
  | .file p :: rest, stack => applyOps rest (trackCreatedFile p stack)
  | .dir p :: rest, stack => applyOps rest (trackCreatedDir p stack)

def filesOf (ops : List TrackOp) : List FPath :=
  ops.filterMap (fun op => match op with | .file p => some p | .dir _ => none)

def dirsOf (ops : List TrackOp) : List FPath :=
  ops.filterMap (fun op => match op with | .dir p => some p | .file _ => none)

/-- The file system reached after the file-removal phase (tracked files
in creation order) and the directory-removal phase (tracked directories
in reverse creation order) of one ledger entry — the state in which the
project root's emptiness is then tested. -/
def rollbackPhases (bad : FPath → Bool) (fs : ProjFS) (e : RollbackInfo) :
    ProjFS :=
  (removeSeq bad (removeSeq bad fs e.createdFiles).1 e.createdDirs.reverse).1

/-! ## Step runner (`ProgressIndicator.runSteps`) and orchestration
(`generateProjectStructure` in the template manager)

A step's action mutates the project file system and the ledger and may
fail; a failing action may have performed part of its effects first, so
an action returns the state it reached together with an optional error.
The concrete steps of `generateProjectStructure` (copy base tree, copy
ORM tree, merge package.json, Docker/CI/README generation) are instances
of this shape; the claim under verification is about the step-running,
rollback and re-throw discipline, which is embedded over an arbitrary
step list. -/

structure GenState where
  fs : ProjFS
  stack : List RollbackInfo
deriving DecidableEq, Repr

structure GStep where
  name : String
  action : GenState → GenState × Option String

/-- `ProgressIndicator.runSteps`: steps run sequentially; `runStep`
re-throws a step's error after marking the spinner failed, so the first
failure stops the loop and propagates. -/
def runSteps : List GStep → GenState → GenState × Option String
  | [], st => (st, none)
  | step :: rest, st =>
    match step.action st with
    | (st1, some e) => (st1, some e)
    | (st1, none) => runSteps rest st1

/-- `generateProjectStructure`: pushes a rollback point, runs the steps;
on success returns normally; on the first failure `handleError` rolls the
ledger back (clearing the stack) and the original error is re-thrown. -/
def generateProjectStructure (bad : FPath → Bool) (steps : List GStep)
    (projectPath : FPath) (st : GenState) : GenState × Option String :=
  let st0 : GenState := { st with stack := addRollbackPoint projectPath st.stack }
  match runSteps steps st0 with
  | (st1, none) => (st1, none)
  | (st1, some e) => ({ fs := handleError bad st1.fs st1.stack, stack := [] }, some e)

/-! ## Tree assembler (`shouldSkipFile`, `copyDirectoryRecursive`) -/

/-- Contiguous-substring test on character lists. -/
def hasInfix (pat : List Char) : List Char → Bool
  | [] => pat.isEmpty
  | c :: rest => pat.isPrefixOf (c :: rest) || hasInfix pat rest

/-- `String.includes` (substring containment). -/
def strIncludes (s pat : String) : Bool := hasInfix pat.data s.data

def databaseFiles : List String :=
  ["docker-compose.postgres.yml.ejs",
   "docker-compose.mysql.yml.ejs",
   "docker-compose.mongodb.yml.ejs",
   "docker-compose.sqlite.yml.ejs"]

/-- Embedding of `shouldSkipFile`: under a source path containing
`"base"`, a `docker-compose.*` file from the database-specific list is
skipped unless it is the one matching `data.database`. -/
def shouldSkipFile (filename : String) (sourcePath : String)
    (data : TemplateData) : Bool :=
  if strIncludes sourcePath "base" && strStartsWith filename "docker-compose." then
    let selectedDbFile := "docker-compose." ++ data.database.toStr ++ ".yml.ejs"
    databaseFiles.contains filename && filename != selectedDbFile
  else false

/-- A node of the source template tree (the result of `readdir`/`stat`
walks: a regular file with its bytes, or a directory with its entries in
listing order). -/
inductive TEntry where
  | file (name : String) (bytes : String)
  | dir (name : String) (children : List TEntry)

/-- One file written to the target, annotated with the source directory
and item name it came from (so that provenance is visible to the
specification); `target` and `content` are what `fs.writeFile`/`fs.copy`
received.  Written files are exactly the files tracked in the ledger
(`trackCreatedFile` is called once right after each write). -/
structure WriteRec where
  srcDir : String
  item : String
  target : String
  content : String
deriving DecidableEq, Repr

/-- One directory created and tracked (`ensureDir` + `trackCreatedDir`),
annotated with its source provenance. -/
structure DirRec where
  srcDir : String
  item : String
  target : String
deriving DecidableEq, Repr

structure CopyResult where
  writes : List WriteRec
  trackedDirs : List DirRec
deriving DecidableEq, Repr

/-- `targetItemPath.replace(/\.ejs$/, '')` (applied only when the name
ends in `.ejs`). -/
def stripSuffixEjs (s : String) : String :=
  String.mk (s.data.take (s.data.length - 4))

/-- Embedding of `copyDirectoryRecursive`: walks the entries of one
source directory in listing order.  A skipped item (`shouldSkipFile`)
contributes nothing.  A directory named `docker` under a source path
containing `base` is skipped (handled by a later Docker step).  Other
directories are created, tracked, and recursed into.  A `.ejs` file is
rendered and written with the suffix stripped; other files are copied
byte-for-byte; each written file is tracked. -/
def copyDirectoryRecursive (render : String → TemplateData → String)
    (data : TemplateData) :
    List TEntry → String → String → CopyResult
  | [], _, _ => ⟨[], []⟩
  | .file name bytes :: rest, sourcePath, targetPath =>
    if shouldSkipFile name sourcePath data then
      copyDirectoryRecursive render data rest sourcePath targetPath
    else
      let w : WriteRec :=
        if strEndsWith name ".ejs" then
          ⟨sourcePath, name, stripSuffixEjs (joinPath targetPath name),
            render bytes data⟩
        else
          ⟨sourcePath, name, joinPath targetPath name, bytes⟩
      let restR := copyDirectoryRecursive render data rest sourcePath targetPath
      ⟨w :: restR.writes, restR.trackedDirs⟩
  | .dir name children :: rest, sourcePath, targetPath =>
    if shouldSkipFile name sourcePath data then
      copyDirectoryRecursive render data rest sourcePath targetPath
    else if name == "docker" && strIncludes sourcePath "base" then
      copyDirectoryRecursive render data rest sourcePath targetPath
    else
      let dr : DirRec := ⟨sourcePath, name, joinPath targetPath name⟩
      let sub := copyDirectoryRecursive render data children
        (joinPath sourcePath name) (joinPath targetPath name)
      let restR := copyDirectoryRecursive render data rest sourcePath targetPath
      ⟨sub.writes ++ restR.writes, dr :: (sub.trackedDirs ++ restR.trackedDirs)⟩

/-! ## Manifest merger (`mergePackageJson`) -/

/-- A parsed JSON value, restricted to what the merge inspects: the three
merged sections are flat string-to-string objects (as every manifest
template produces), anything else is kept opaque. -/
inductive JVal where
  | obj (entries : List (String × String))
  | prim (s : String)
deriving DecidableEq, Repr

/-- A parsed manifest document: its top-level fields in document order. -/
abbrev Manifest := List (String × JVal)

/-- One key of `a` under the spread `{...a, ...b}`: `b`'s value wins when
present. -/
def overrideEntry (b : List (String × String)) (kv : String × String) :
    String × String :=
  match alookup kv.1 b with
  | some v => (kv.1, v)
  | none => kv

/-- The object spread `{...a, ...b}`: `a`'s keys in `a`'s order with `b`'s
value winning on overlap, then `b`'s new keys in `b`'s order. -/
def spreadMerge (a b : List (String × String)) : List (String × String) :=
  a.map (overrideEntry b) ++ b.filter (fun kv => (alookup kv.1 a).isNone)

/-- One field of `m` under the assignment `m[k] = v`. -/
def setEntry (k : String) (v : JVal) (kv : String × JVal) : String × JVal :=
  if kv.1 = k then (k, v) else kv

/-- JS property assignment `m[k] = v`: updates the field in place when
present, otherwise appends it. -/
def setField (k : String) (v : JVal) (m : Manifest) : Manifest :=
  if (alookup k m).isSome then m.map (setEntry k v)
  else m ++ [(k, v)]

/-- `basePackageJson.<name>` viewed as an object for spreading: a missing
field spreads as the empty object (`{...undefined} = {}`). -/
def sectionOf (m : Manifest) (k : String) : List (String × String) :=
  match alookup k m with
  | some (.obj o) => o
  | _ => []

/-- One of the three `if (additionsJson.<name>) { ... }` blocks: when the
additions document carries the section (an object — `{}` is truthy, so
any object triggers the merge), the base's section is replaced by the
spread of the two. -/
def mergeSection (adds : Manifest) (m : Manifest) (name : String) : Manifest :=
  match alookup name adds with
  | some (.obj o) => setField name (.obj (spreadMerge (sectionOf m name) o)) m
  | _ => m

def specialSections : List String := ["dependencies", "devDependencies", "scripts"]

/-- Embedding of the merge core of `mergePackageJson` (the surrounding
code renders both templates via `renderTemplate` and `JSON.parse`s them;
the merge itself operates on the parsed documents): `dependencies`,
`devDependencies` and `scripts` are each spread-merged when present in
the additions document, and the result is written out; no other field is
consulted or modified. -/
def mergePackageJson (base adds : Manifest) : Manifest :=
  specialSections.foldl (mergeSection adds) base

/-! ## Concrete instances used by counterexamples and witnesses -/

/-- A representative valid configuration record. -/
def demoData : TemplateData := ⟨"demo", .prisma, .postgres, .npm, true, true⟩

/-- A concrete instance of the abstract `ejs.render` parameter: renders a
template to its own bytes (a template with no embedded expressions). -/
def idRender : String → TemplateData → String := fun b _ => b

def emptyCache : CacheState := ⟨[], []⟩

/-- Template source before mutation: `t.ejs` holds `"hello"`. -/
def c1fsBefore : TemplateFS := [("cw/templates/t.ejs", "hello")]

/-- Template source after mutation: the same `t.ejs` now holds `"world"`. -/
def c1fsAfter : TemplateFS := [("cw/templates/t.ejs", "world")]

/-- Cache state after the first render call against `c1fsBefore`. -/
def c1stAfterFirst : CacheState :=
  setCachedTemplate c1fsBefore "cw" emptyCache "t.ejs" demoData "hello"

/-- A stale on-disk-only cache state: the stored hash is the hash of
`"hello"` while the template now holds `"world"`. -/
def c1diskStale : CacheState :=
  ⟨[], [(getCacheKey "t.ejs" demoData,
        ⟨"hello", generateHash "hello", "t.ejs", generateDataHash demoData⟩)]⟩

/-- A template rendering to the empty string. -/
def c7fsEmpty : TemplateFS := [("cw/templates/e.ejs", "")]

def c7stAfterFirst : CacheState :=
  setCachedTemplate c7fsEmpty "cw" emptyCache "e.ejs" demoData ""

/-- Template source used by the cache-key collision scenario. -/
def c9tfs : TemplateFS := [("cw/templates/a/b", "template-bytes")]

/-- A removal environment in which exactly the file `p/f1` cannot be
removed (`fs.remove` throws on it). -/
def badC2 : FPath → Bool := fun p => decide (p = ["p", "f1"])

def fsC2 : ProjFS := [["p"], ["p", "f1"], ["p", "f2"]]

/-- A ledger entry tracking `p/f1` (whose removal fails) before `p/f2`
(removable). -/
def entC2 : RollbackInfo := ⟨["p"], [["p", "f1"], ["p", "f2"]], []⟩

/-- A second, clean ledger entry under a different root. -/
def entW1 : RollbackInfo := ⟨["q"], [["q", "g1"]], [["q", "sub"]]⟩

def fsW : ProjFS := [["p"], ["p", "f1"], ["q"], ["q", "g1"], ["q", "sub"]]

/-- A tracking sequence: nested directories tracked after their parents,
files interleaved. -/
def opsC3 : List TrackOp :=
  [.dir ["p", "src"], .file ["p", "src", "a.ts"],
   .dir ["p", "src", "mod"], .file ["p", "b.txt"]]

def fsC3 : ProjFS :=
  [["p"], ["p", "src"], ["p", "src", "a.ts"], ["p", "src", "mod"],
   ["p", "b.txt"]]

/-- A concrete step in the shape of "Copying base template": creates one
file under the project root and tracks it in the ledger. -/
def c4stepTrack : GStep :=
  ⟨"Copying base template", fun st =>
    ({ fs := st.fs ++ [["proj", "file.ts"]]
       stack := trackCreatedFile ["proj", "file.ts"] st.stack }, none)⟩

/-- A concrete failing step in the shape of "Copying ORM-specific
templates" hitting a missing template directory. -/
def c4stepFail : GStep :=
  ⟨"Copying ORM-specific templates", fun st =>
    (st, some "Template directory not found: prisma")⟩

/-- The generation state reached after `c4stepTrack` runs from a bare
project root with a fresh checkpoint. -/
def c4stPre : GenState :=
  ⟨[["proj"], ["proj", "file.ts"]],
   [⟨["proj"], [["proj", "file.ts"]], []⟩]⟩

/-- An additions manifest carrying only a top-level key that is not one
of the three merged sections. -/
def c6adds : Manifest := [("keywords", .prim "cli")]

/-- A base manifest with a non-section field and a dependencies
section. -/
def c6base : Manifest :=
  [("name", .prim "app"), ("dependencies", .obj [("a", "1"), ("b", "1")])]

/-- An additions manifest overlapping the base on `b` and adding `c`. -/
def c6addsDeps : Manifest :=
  [("dependencies", .obj [("b", "2"), ("c", "3")]),
   ("scripts", .obj [("s", "x")])]

/-- A base template listing with two database-variant compose templates
(only the postgres one matches `demoData`), a plain file and a nested
directory. -/
def c5tree : List TEntry :=
  [.file "docker-compose.postgres.yml.ejs" "pg",
   .file "docker-compose.mysql.yml.ejs" "my",
   .file "logo.png" "bin",
   .dir "src" [.file "app.ts.ejs" "app"]]

/-! # Theorems -/

/-! ## Association-list and cache lemmas -/

theorem alookup_cons {α : Type} (k k1 : String) (v : α) (l : List (String × α)) :
    alookup k ((k1, v) :: l) = if k1 = k then some v else alookup k l := rfl

/-- An in-memory hit returns the stored content and leaves the state
unchanged, with no validation of any kind. -/
theorem getCachedTemplate_mem_hit (tfs : TemplateFS) (cwd : String)
    (st : CacheState) (t : String) (d : TemplateData) (e : CachedTemplate)
    (he : alookup (getCacheKey t d) st.mem = some e) :
    getCachedTemplate tfs cwd st t d = (some e.content, st) := by
  simp [getCachedTemplate, he]

/-- `setCachedTemplate` is a no-op when the template file is absent from
the cache's template root. -/
theorem setCachedTemplate_missing (tfs : TemplateFS) (cwd : String)
    (st : CacheState) (t : String) (d : TemplateData) (c : String)
    (h : alookup (templatesRoot cwd t) tfs = none) :
    setCachedTemplate tfs cwd st t d c = st := by
  simp [setCachedTemplate, h]

/-- `setCachedTemplate` writes the same entry to both tiers when the
template file is present. -/
theorem setCachedTemplate_found (tfs : TemplateFS) (cwd : String)
    (st : CacheState) (t : String) (d : TemplateData) (c cb : String)
    (h : alookup (templatesRoot cwd t) tfs = some cb) :
    setCachedTemplate tfs cwd st t d c =
      { mem := (getCacheKey t d, ⟨c, generateHash cb, t, generateDataHash d⟩) :: st.mem
        disk := (getCacheKey t d, ⟨c, generateHash cb, t, generateDataHash d⟩) :: st.disk } := by
  simp [setCachedTemplate, h]

/-- Case split for `getCachedTemplate`: either a miss with untouched
state, or the answer is the content of an entry found (afterwards) in the
in-memory tier. -/
theorem getCachedTemplate_spec (tfs : TemplateFS) (cwd : String)
    (st : CacheState) (t : String) (d : TemplateData) (r : Option String)
    (st2 : CacheState) (h : getCachedTemplate tfs cwd st t d = (r, st2)) :
    (r = none ∧ st2 = st)
    ∨ (∃ e, r = some e.content ∧ alookup (getCacheKey t d) st2.mem = some e) := by
  cases hm : alookup (getCacheKey t d) st.mem with
  | some e =>
    simp only [getCachedTemplate, hm] at h
    rw [Prod.mk.injEq] at h
    exact .inr ⟨e, h.1.symm, h.2 ▸ hm⟩
  | none =>
    cases hd : alookup (getCacheKey t d) st.disk with
    | none =>
      simp only [getCachedTemplate, hm, hd] at h
      rw [Prod.mk.injEq] at h
      exact .inl ⟨h.1.symm, h.2.symm⟩
    | some cd =>
      cases ht : alookup (templatesRoot cwd t) tfs with
      | none =>
        simp only [getCachedTemplate, hm, hd, ht] at h
        rw [Prod.mk.injEq] at h
        exact .inl ⟨h.1.symm, h.2.symm⟩
      | some tc =>
        by_cases hh : cd.hash = generateHash tc
        · simp only [getCachedTemplate, hm, hd, ht, if_pos hh] at h
          rw [Prod.mk.injEq] at h
          refine .inr ⟨cd, h.1.symm, ?_⟩
          rw [← h.2]
          simp [alookup]
        · simp only [getCachedTemplate, hm, hd, ht, if_neg hh] at h
          rw [Prod.mk.injEq] at h
          exact .inl ⟨h.1.symm, h.2.symm⟩

/-! ## C10 — project-name length bound -/

/-- C10: `validateProjectName` rejects every name longer than 50
characters, whatever its other properties — an upper length bound on the
public validation interface. -/
theorem validateProjectName_rejects_over_50 (s : String) (h : 50 < s.length) :
    validateProjectName s = false := by
  have h50 : decide (s.length ≤ 50) = false := decide_eq_false (by omega)
  simp [validateProjectName, h50]

/-- Witness for C10 at a concrete 51-character name that satisfies every
other rule (non-empty, lowercase alphanumeric, no leading or trailing
hyphen). -/
theorem validateProjectName_rejects_over_50_witness :
    50 < ("aaaaaaaaaaaaaaaaaaaaaaaaaaaaaaaaaaaaaaaaaaaaaaaaaaa" : String).length
    ∧ "aaaaaaaaaaaaaaaaaaaaaaaaaaaaaaaaaaaaaaaaaaaaaaaaaaa".toList.all isProjectNameChar = true
    ∧ validateProjectName "aaaaaaaaaaaaaaaaaaaaaaaaaaaaaaaaaaaaaaaaaaaaaaaaaaa" = false :=
  ⟨by decide, by decide,
    validateProjectName_rejects_over_50
      "aaaaaaaaaaaaaaaaaaaaaaaaaaaaaaaaaaaaaaaaaaaaaaaaaaa" (by decide)⟩

/-! ## C9 — cache-key collisions -/

/-- C9: the cache key function is not injective over template identities:
`"a/b"` and `"a_b"` are distinct template paths mapping to the same cache
key under the same configuration, and an entry stored via
`setCachedTemplate` for `"a/b"` is returned by `getCachedTemplate` for
`"a_b"`. -/
theorem getCacheKey_collision :
    getCacheKey "a/b" demoData = getCacheKey "a_b" demoData
    ∧ ("a/b" : String) ≠ "a_b"
    ∧ (getCachedTemplate c9tfs "cw"
        (setCachedTemplate c9tfs "cw" emptyCache "a/b" demoData "rendered-for-first")
        "a_b" demoData).1 = some "rendered-for-first" :=
  ⟨rfl, by decide, rfl⟩

/-! ## C1 — hash validation of cache reads -/

/-- Counterexample to C1 as stated: after a first render of `t.ejs`
(bytes `"hello"`) populates the cache, mutating the template's bytes to
`"world"` does not make the second call recompute — the in-memory entry
is returned without hash validation even though its stored hash
(`generateHash "hello"`) differs from the hash of the current bytes, and
the stale `"hello"` (not the recomputed `"world"`) is served from cache. -/
theorem cache_get_validates_hash_cex :
    renderTemplate idRender "cw/templates" "cw" c1fsBefore emptyCache "t.ejs" demoData
      = .ok ("hello", false, c1stAfterFirst)
    ∧ renderTemplate idRender "cw/templates" "cw" c1fsAfter c1stAfterFirst "t.ejs" demoData
      = .ok ("hello", true, c1stAfterFirst)
    ∧ alookup (templatesRoot "cw" "t.ejs") c1fsAfter = some "world"
    ∧ alookup (getCacheKey "t.ejs" demoData) c1stAfterFirst.mem
        = some ⟨"hello", generateHash "hello", "t.ejs", generateDataHash demoData⟩
    ∧ generateHash "hello" ≠ generateHash "world"
    ∧ idRender "world" demoData ≠ "hello" :=
  ⟨rfl, rfl, rfl, rfl, by decide, by decide⟩

/-- C1 (amended): only the on-disk tier is hash-validated.  When the
requested key is absent from the in-memory map and every on-disk entry
for it fails hash validation against the current template bytes,
`getCachedTemplate` misses with the state unchanged, and consequently a
`renderTemplate` call recomputes from the current bytes instead of
returning any stale cached value.  (In-memory entries, by contrast, are
returned without revalidation — see the counterexample.) -/
theorem cache_get_disk_tier_validates_hash (tfs : TemplateFS) (cwd : String)
    (st : CacheState) (t : String) (d : TemplateData)
    (hmem : alookup (getCacheKey t d) st.mem = none)
    (hdisk : ∀ e cb, alookup (getCacheKey t d) st.disk = some e →
      alookup (templatesRoot cwd t) tfs = some cb → e.hash ≠ generateHash cb) :
    getCachedTemplate tfs cwd st t d = (none, st)
    ∧ ∀ (render : String → TemplateData → String) (bp B : String),
        alookup (joinPath bp t) tfs = some B →
        renderTemplate render bp cwd tfs st t d
          = .ok (render B d, false, setCachedTemplate tfs cwd st t d (render B d)) := by
  have hget : getCachedTemplate tfs cwd st t d = (none, st) := by
    cases hd : alookup (getCacheKey t d) st.disk with
    | none => simp [getCachedTemplate, hmem, hd]
    | some e =>
      cases ht : alookup (templatesRoot cwd t) tfs with
      | none => simp [getCachedTemplate, hmem, hd, ht]
      | some cb => simp [getCachedTemplate, hmem, hd, ht, hdisk e cb hd ht]
  refine ⟨hget, ?_⟩
  intro render bp B hB
  simp [renderTemplate, hB, hget]

/-- Witness for the amended C1: against the mutated template source, a
process whose in-memory tier is empty but whose on-disk tier holds the
stale entry recomputes `"world"` instead of returning `"hello"`. -/
theorem cache_get_disk_tier_validates_hash_witness :
    getCachedTemplate c1fsAfter "cw" c1diskStale "t.ejs" demoData = (none, c1diskStale)
    ∧ renderTemplate idRender "cw/templates" "cw" c1fsAfter c1diskStale "t.ejs" demoData
        = .ok ("world", false,
            setCachedTemplate c1fsAfter "cw" c1diskStale "t.ejs" demoData "world") :=
  ⟨(cache_get_disk_tier_validates_hash c1fsAfter "cw" c1diskStale "t.ejs" demoData rfl
      (by intro e cb he hcb; injection he with h1; injection hcb with h2
          rw [← h1, ← h2]; decide)).1,
    (cache_get_disk_tier_validates_hash c1fsAfter "cw" c1diskStale "t.ejs" demoData rfl
      (by intro e cb he hcb; injection he with h1; injection hcb with h2
          rw [← h1, ← h2]; decide)).2
      idRender "cw/templates" "world" rfl⟩

/-! ## C8 — writes to both cache tiers -/

/-- Counterexample to C8 as stated: with the template file absent from
the cache's template root, `setCachedTemplate` writes nothing to either
tier (the claim requires an entry to be written for every template
identity, configuration and content). -/
theorem put_writes_both_tiers_cex :
    alookup (templatesRoot "cw" "missing.ejs") c1fsBefore = none
    ∧ setCachedTemplate c1fsBefore "cw" emptyCache "missing.ejs" demoData "content"
        = emptyCache
    ∧ alookup (getCacheKey "missing.ejs" demoData)
        (setCachedTemplate c1fsBefore "cw" emptyCache "missing.ejs" demoData "content").mem
        = none
    ∧ alookup (getCacheKey "missing.ejs" demoData)
        (setCachedTemplate c1fsBefore "cw" emptyCache "missing.ejs" demoData "content").disk
        = none :=
  ⟨rfl, rfl, rfl, rfl⟩

/-- C8 (amended): provided the template file exists at the cache's
template root, `setCachedTemplate` computes the template hash (of the
file's current bytes) and the configuration hash and writes the resulting
entry to both tiers; since this holds for every prior state `st`, the
entry read back is always the one written last (last-write-wins).  When
the template file does not exist, it writes nothing (see the
counterexample). -/
theorem put_writes_both_tiers (tfs : TemplateFS) (cwd : String)
    (st : CacheState) (t : String) (d : TemplateData) (c cb : String)
    (h : alookup (templatesRoot cwd t) tfs = some cb) :
    alookup (getCacheKey t d) (setCachedTemplate tfs cwd st t d c).mem
      = some ⟨c, generateHash cb, t, generateDataHash d⟩
    ∧ alookup (getCacheKey t d) (setCachedTemplate tfs cwd st t d c).disk
      = some ⟨c, generateHash cb, t, generateDataHash d⟩ := by
  rw [setCachedTemplate_found tfs cwd st t d c cb h]
  constructor <;> simp [alookup]

/-- Witness for the amended C8: a put over a state already holding an
entry for the same key; the entry read back from both tiers is the one
written last. -/
theorem put_writes_both_tiers_witness :
    alookup (getCacheKey "t.ejs" demoData)
      (setCachedTemplate c1fsBefore "cw" c1stAfterFirst "t.ejs" demoData "second").mem
      = some ⟨"second", generateHash "hello", "t.ejs", generateDataHash demoData⟩
    ∧ alookup (getCacheKey "t.ejs" demoData)
      (setCachedTemplate c1fsBefore "cw" c1stAfterFirst "t.ejs" demoData "second").disk
      = some ⟨"second", generateHash "hello", "t.ejs", generateDataHash demoData⟩ :=
  put_writes_both_tiers c1fsBefore "cw" c1stAfterFirst "t.ejs" demoData "second" "hello" rfl

/-! ## C7 — repeated rendering -/

/-- Branch equation: a cache answer `some c` makes `renderTemplate`
return the cached value when it is truthy and recompute when it is the
empty string. -/
theorem renderTemplate_hit (render : String → TemplateData → String)
    (bp cwd : String) (tfs : TemplateFS) (st stA : CacheState) (t : String)
    (d : TemplateData) (B c : String)
    (hB : alookup (joinPath bp t) tfs = some B)
    (hg : getCachedTemplate tfs cwd st t d = (some c, stA)) :
    renderTemplate render bp cwd tfs st t d =
      if c = "" then
        .ok (render B d, false, setCachedTemplate tfs cwd stA t d (render B d))
      else .ok (c, true, stA) := by
  simp only [renderTemplate, hB, hg]

/-- Branch equation: a cache miss makes `renderTemplate` recompute and
store. -/
theorem renderTemplate_miss (render : String → TemplateData → String)
    (bp cwd : String) (tfs : TemplateFS) (st stA : CacheState) (t : String)
    (d : TemplateData) (B : String)
    (hB : alookup (joinPath bp t) tfs = some B)
    (hg : getCachedTemplate tfs cwd st t d = (none, stA)) :
    renderTemplate render bp cwd tfs st t d =
      .ok (render B d, false, setCachedTemplate tfs cwd stA t d (render B d)) := by
  simp only [renderTemplate, hB, hg]

/-- After a successful `renderTemplate` call, either the cache state is
unchanged, or the in-memory tier holds an entry for the key whose content
is the returned output (when non-empty), an empty stored content being
possible only when the output was freshly recomputed. -/
theorem renderTemplate_mem_after (render : String → TemplateData → String)
    (bp cwd : String) (tfs : TemplateFS) (st : CacheState) (t : String)
    (d : TemplateData) (out : String) (f : Bool) (st1 : CacheState) (B : String)
    (hB : alookup (joinPath bp t) tfs = some B)
    (h : renderTemplate render bp cwd tfs st t d = .ok (out, f, st1)) :
    st1 = st
    ∨ ∃ e, alookup (getCacheKey t d) st1.mem = some e
        ∧ (e.content ≠ "" → e.content = out)
        ∧ (e.content = "" → out = render B d) := by
  rcases hg : getCachedTemplate tfs cwd st t d with ⟨r, stA⟩
  rcases getCachedTemplate_spec tfs cwd st t d r stA hg with ⟨hr, hst⟩ | ⟨e, hr, he⟩
  · subst hr
    rw [renderTemplate_miss render bp cwd tfs st stA t d B hB hg] at h
    simp only [Except.ok.injEq, Prod.mk.injEq] at h
    obtain ⟨hout, _, hst1⟩ := h
    cases hset : alookup (templatesRoot cwd t) tfs with
    | none =>
      left
      rw [← hst1, setCachedTemplate_missing tfs cwd stA t d _ hset, hst]
    | some cb =>
      right
      refine ⟨⟨render B d, generateHash cb, t, generateDataHash d⟩, ?_, ?_, ?_⟩
      · rw [← hst1, setCachedTemplate_found tfs cwd stA t d _ cb hset]
        simp [alookup]
      · intro _; exact hout
      · intro _; exact hout.symm
  · subst hr
    rw [renderTemplate_hit render bp cwd tfs st stA t d B e.content hB hg] at h
    by_cases hc : e.content = ""
    · rw [if_pos hc] at h
      simp only [Except.ok.injEq, Prod.mk.injEq] at h
      obtain ⟨hout, _, hst1⟩ := h
      cases hset : alookup (templatesRoot cwd t) tfs with
      | none =>
        right
        refine ⟨e, ?_, fun hne => absurd hc hne, fun _ => hout.symm⟩
        rw [← hst1, setCachedTemplate_missing tfs cwd stA t d _ hset]
        exact he
      | some cb =>
        right
        refine ⟨⟨render B d, generateHash cb, t, generateDataHash d⟩, ?_, ?_, ?_⟩
        · rw [← hst1, setCachedTemplate_found tfs cwd stA t d _ cb hset]
          simp [alookup]
        · intro _; exact hout
        · intro _; exact hout.symm
    · rw [if_neg hc] at h
      simp only [Except.ok.injEq, Prod.mk.injEq] at h
      obtain ⟨hout, _, hst1⟩ := h
      right
      exact ⟨e, hst1 ▸ he, fun _ => hout, fun hce => absurd hce hc⟩

/-- When the template is also visible at the cache's template root, a
successful `renderTemplate` call always leaves an in-memory entry for the
key whose content is the returned output. -/
theorem renderTemplate_mem_after_found (render : String → TemplateData → String)
    (bp cwd : String) (tfs : TemplateFS) (st : CacheState) (t : String)
    (d : TemplateData) (out : String) (f : Bool) (st1 : CacheState) (B cb : String)
    (hB : alookup (joinPath bp t) tfs = some B)
    (hcb : alookup (templatesRoot cwd t) tfs = some cb)
    (h : renderTemplate render bp cwd tfs st t d = .ok (out, f, st1)) :
    ∃ e, alookup (getCacheKey t d) st1.mem = some e ∧ e.content = out := by
  rcases hg : getCachedTemplate tfs cwd st t d with ⟨r, stA⟩
  rcases getCachedTemplate_spec tfs cwd st t d r stA hg with ⟨hr, hst⟩ | ⟨e, hr, he⟩
  · subst hr
    rw [renderTemplate_miss render bp cwd tfs st stA t d B hB hg] at h
    simp only [Except.ok.injEq, Prod.mk.injEq] at h
    obtain ⟨hout, _, hst1⟩ := h
    refine ⟨⟨render B d, generateHash cb, t, generateDataHash d⟩, ?_, hout⟩
    rw [← hst1, setCachedTemplate_found tfs cwd stA t d _ cb hcb]
    simp [alookup]
  · subst hr
    rw [renderTemplate_hit render bp cwd tfs st stA t d B e.content hB hg] at h
    by_cases hc : e.content = ""
    · rw [if_pos hc] at h
      simp only [Except.ok.injEq, Prod.mk.injEq] at h
      obtain ⟨hout, _, hst1⟩ := h
      refine ⟨⟨render B d, generateHash cb, t, generateDataHash d⟩, ?_, hout⟩
      rw [← hst1, setCachedTemplate_found tfs cwd stA t d _ cb hcb]
      simp [alookup]
    · rw [if_neg hc] at h
      simp only [Except.ok.injEq, Prod.mk.injEq] at h
      obtain ⟨hout, _, hst1⟩ := h
      exact ⟨e, hst1 ▸ he, hout⟩

/-- Counterexample to C7 as stated: a valid configuration and an existing,
unchanged template whose rendered output is empty.  The first call caches
the empty string; on the second call the cached value is falsy
(`if (cachedContent)`), so the call recomputes (cache-served flag
`false`, and `setCachedTemplate` runs again) instead of being served from
the cache.  The outputs are still byte-identical. -/
theorem render_second_call_cached_cex :
    renderTemplate idRender "cw/templates" "cw" c7fsEmpty emptyCache "e.ejs" demoData
      = .ok ("", false, c7stAfterFirst)
    ∧ renderTemplate idRender "cw/templates" "cw" c7fsEmpty c7stAfterFirst "e.ejs" demoData
      = .ok ("", false,
          setCachedTemplate c7fsEmpty "cw" c7stAfterFirst "e.ejs" demoData "") :=
  ⟨rfl, rfl⟩

/-- C7 (amended): two successive `renderTemplate` calls with the same
configuration against an unchanged template source return byte-identical
output; the second call is served from the cache (early return of the
cached value, state unchanged) provided additionally that the template is
visible at the cache's template root and the first output is non-empty
(an empty cached string is falsy and forces a recompute — see the
counterexample). -/
theorem render_twice_deterministic_and_cached
    (render : String → TemplateData → String) (bp cwd : String)
    (tfs : TemplateFS) (st : CacheState) (t : String) (d : TemplateData)
    (out1 : String) (f1 : Bool) (st1 : CacheState)
    (h1 : renderTemplate render bp cwd tfs st t d = .ok (out1, f1, st1)) :
    (∀ out2 f2 st2,
        renderTemplate render bp cwd tfs st1 t d = .ok (out2, f2, st2) →
        out2 = out1)
    ∧ (∀ cb, alookup (templatesRoot cwd t) tfs = some cb → out1 ≠ "" →
        renderTemplate render bp cwd tfs st1 t d = .ok (out1, true, st1)) := by
  cases hB : alookup (joinPath bp t) tfs with
  | none => simp [renderTemplate, hB] at h1
  | some B =>
    constructor
    · intro out2 f2 st2 h2
      rcases renderTemplate_mem_after render bp cwd tfs st t d out1 f1 st1 B hB h1 with
        hst | ⟨e, he, i1, i2⟩
      · rw [hst, h1] at h2
        simp only [Except.ok.injEq, Prod.mk.injEq] at h2
        exact h2.1.symm
      · have hgm := getCachedTemplate_mem_hit tfs cwd st1 t d e he
        rw [renderTemplate_hit render bp cwd tfs st1 st1 t d B e.content hB hgm] at h2
        by_cases hc : e.content = ""
        · rw [if_pos hc] at h2
          simp only [Except.ok.injEq, Prod.mk.injEq] at h2
          rw [← h2.1, i2 hc]
        · rw [if_neg hc] at h2
          simp only [Except.ok.injEq, Prod.mk.injEq] at h2
          rw [← h2.1, i1 hc]
    · intro cb hcb hne
      obtain ⟨e, he, hc⟩ :=
        renderTemplate_mem_after_found render bp cwd tfs st t d out1 f1 st1 B cb hB hcb h1
      have hgm := getCachedTemplate_mem_hit tfs cwd st1 t d e he
      rw [renderTemplate_hit render bp cwd tfs st1 st1 t d B e.content hB hgm, hc,
        if_neg hne]

/-- Witness for the amended C7: rendering `t.ejs` (bytes `"hello"`) twice
from an empty cache; the second call returns the identical output with
the cache-served flag set and the state unchanged. -/
theorem render_twice_deterministic_and_cached_witness :
    renderTemplate idRender "cw/templates" "cw" c1fsBefore c1stAfterFirst "t.ejs" demoData
      = .ok ("hello", true, c1stAfterFirst) :=
  (render_twice_deterministic_and_cached idRender "cw/templates" "cw" c1fsBefore
      emptyCache "t.ejs" demoData "hello" false c1stAfterFirst rfl).2
    "hello" rfl (by decide)

/-! ## Rollback lemmas (shared by C2 and C3) -/

theorem mem_removePath {fs : ProjFS} {p q : FPath} :
    q ∈ removePath fs p ↔ q ∈ fs ∧ ¬ p <+: q := by
  simp [removePath, List.mem_filter]

/-- A removal loop only removes: its result is contained in its input. -/
theorem removeSeq_subset (bad : FPath → Bool) (l : List FPath) :
    ∀ fs q, q ∈ (removeSeq bad fs l).1 → q ∈ fs := by
  induction l with
  | nil => intro fs q h; exact h
  | cons p rest ih =>
    intro fs q h
    rw [removeSeq] at h
    by_cases hp : pathExistsF fs p = true
    · rw [if_pos hp] at h
      by_cases hb : bad p = true
      · rw [if_pos hb] at h; exact h
      · rw [if_neg hb] at h
        exact (mem_removePath.mp (ih _ q h)).1
    · rw [if_neg hp] at h
      exact ih _ q h

/-- When no listed path's removal throws, the loop finishes without
raising the error flag. -/
theorem removeSeq_flag_false (bad : FPath → Bool) (l : List FPath) :
    ∀ fs, (∀ p ∈ l, bad p = false) → (removeSeq bad fs l).2 = false := by
  induction l with
  | nil => intro fs _; rfl
  | cons p rest ih =>
    intro fs hgood
    rw [removeSeq]
    by_cases hp : pathExistsF fs p = true
    · rw [if_pos hp, if_neg (by simp [hgood p (List.mem_cons_self ..)])]
      exact ih _ (fun r hr => hgood r (List.mem_cons_of_mem _ hr))
    · rw [if_neg hp]
      exact ih _ (fun r hr => hgood r (List.mem_cons_of_mem _ hr))

/-- When no listed path's removal throws, every listed path is absent
from the loop's result. -/
theorem removeSeq_removes (bad : FPath → Bool) (l : List FPath) :
    ∀ fs, (∀ p ∈ l, bad p = false) → ∀ p ∈ l, p ∉ (removeSeq bad fs l).1 := by
  induction l with
  | nil => intro fs _ p hp; cases hp
  | cons q rest ih =>
    intro fs hgood p hp
    rw [removeSeq]
    by_cases he : pathExistsF fs q = true
    · rw [if_pos he, if_neg (by simp [hgood q (List.mem_cons_self ..)])]
      rcases List.mem_cons.mp hp with rfl | hrest
      · intro hmem
        exact (mem_removePath.mp (removeSeq_subset bad rest _ p hmem)).2
          (List.prefix_refl p)
      · exact ih _ (fun r hr => hgood r (List.mem_cons_of_mem _ hr)) p hrest
    · rw [if_neg he]
      rcases List.mem_cons.mp hp with rfl | hrest
      · intro hmem
        have hin := removeSeq_subset bad rest fs p hmem
        simp only [pathExistsF, decide_eq_true_eq] at he
        exact he hin
      · exact ih _ (fun r hr => hgood r (List.mem_cons_of_mem _ hr)) p hrest

theorem rollbackEntryRoot_subset (bad : FPath → Bool) (fs : ProjFS)
    (root : FPath) : ∀ q ∈ (rollbackEntryRoot bad fs root).1, q ∈ fs := by
  intro q h
  unfold rollbackEntryRoot at h
  split at h
  · split at h
    · split at h
      · exact h
      · exact (mem_removePath.mp h).1
    · exact h
  · exact h

theorem rollbackOne_subset (bad : FPath → Bool) (fs : ProjFS)
    (e : RollbackInfo) : ∀ q ∈ (rollbackOne bad fs e).1, q ∈ fs := by
  intro q h
  unfold rollbackOne at h
  rcases h1 : removeSeq bad fs e.createdFiles with ⟨fs1, b1⟩
  cases b1 with
  | true =>
    simp only [h1] at h
    exact removeSeq_subset bad e.createdFiles fs q (h1 ▸ h)
  | false =>
    simp only [h1] at h
    rcases h2 : removeSeq bad fs1 e.createdDirs.reverse with ⟨fs2, b2⟩
    cases b2 with
    | true =>
      simp only [h2] at h
      have hq2 : q ∈ fs1 := removeSeq_subset bad e.createdDirs.reverse fs1 q (h2 ▸ h)
      exact removeSeq_subset bad e.createdFiles fs q (h1 ▸ hq2)
    | false =>
      simp only [h2] at h
      have hq3 : q ∈ fs2 := rollbackEntryRoot_subset bad fs2 e.projectPath q h
      have hq2 : q ∈ fs1 := removeSeq_subset bad e.createdDirs.reverse fs1 q (h2 ▸ hq3)
      exact removeSeq_subset bad e.createdFiles fs q (h1 ▸ hq2)

/-- When none of an entry's own removals throws, processing the entry is
exactly: the two removal phases followed by the root-emptiness check. -/
theorem rollbackOne_eq (bad : FPath → Bool) (fs : ProjFS) (e : RollbackInfo)
    (hf : ∀ p ∈ e.createdFiles, bad p = false)
    (hd : ∀ p ∈ e.createdDirs, bad p = false) :
    rollbackOne bad fs e
      = rollbackEntryRoot bad (rollbackPhases bad fs e) e.projectPath := by
  unfold rollbackOne rollbackPhases
  rcases h1 : removeSeq bad fs e.createdFiles with ⟨fs1, b1⟩
  have hb1 : b1 = false := by
    have := removeSeq_flag_false bad e.createdFiles fs hf
    rw [h1] at this; exact this
  subst hb1
  rcases h2 : removeSeq bad fs1 e.createdDirs.reverse with ⟨fs2, b2⟩
  have hb2 : b2 = false := by
    have := removeSeq_flag_false bad e.createdDirs.reverse fs1
      (fun p hp => hd p (List.mem_reverse.mp hp))
    rw [h2] at this; exact this
  subst hb2
  simp only [h1, h2]

/-- When none of an entry's own removals throws, every path it tracks is
absent after the entry is processed. -/
theorem rollbackOne_removes (bad : FPath → Bool) (fs : ProjFS)
    (e : RollbackInfo)
    (hf : ∀ p ∈ e.createdFiles, bad p = false)
    (hd : ∀ p ∈ e.createdDirs, bad p = false) :
    ∀ p, (p ∈ e.createdFiles ∨ p ∈ e.createdDirs) →
      p ∉ (rollbackOne bad fs e).1 := by
  rw [rollbackOne_eq bad fs e hf hd]
  intro p hp hmem
  have h2 : p ∈ rollbackPhases bad fs e :=
    rollbackEntryRoot_subset bad _ e.projectPath p hmem
  unfold rollbackPhases at h2
  rcases hp with hpf | hpd
  · have h3 := removeSeq_subset bad e.createdDirs.reverse _ p h2
    exact removeSeq_removes bad e.createdFiles fs hf p hpf h3
  · exact removeSeq_removes bad e.createdDirs.reverse _
      (fun q hq => hd q (List.mem_reverse.mp hq)) p (List.mem_reverse.mpr hpd) h2

theorem rollbackFold_subset (bad : FPath → Bool) (l : List RollbackInfo) :
    ∀ fs q, q ∈ l.foldl (fun f e => (rollbackOne bad f e).1) fs → q ∈ fs := by
  induction l with
  | nil => intro fs q h; exact h
  | cons a l ih =>
    intro fs q h
    exact rollbackOne_subset bad fs a q (ih _ q h)

/-- Through the whole loop over ledger entries, an entry none of whose
own removals throws has all its tracked paths removed, regardless of
failures while processing the other entries. -/
theorem rollbackFold_entry (bad : FPath → Bool) (l : List RollbackInfo)
    (e : RollbackInfo) (he : e ∈ l)
    (hf : ∀ p ∈ e.createdFiles, bad p = false)
    (hd : ∀ p ∈ e.createdDirs, bad p = false) :
    ∀ fs p, (p ∈ e.createdFiles ∨ p ∈ e.createdDirs) →
      p ∉ l.foldl (fun f en => (rollbackOne bad f en).1) fs := by
  induction l with
  | nil => cases he
  | cons a l ih =>
    intro fs p hp hmem
    rcases List.mem_cons.mp he with heq | hel
    · subst heq
      exact rollbackOne_removes bad fs e hf hd p hp
        (rollbackFold_subset bad l _ p hmem)
    · exact ih hel _ p hp hmem

theorem performRollback_single (bad : FPath → Bool) (fs : ProjFS)
    (e : RollbackInfo) : performRollback bad fs [e] = (rollbackOne bad fs e).1 := by
  simp [performRollback]

/-- The project root survives the root phase exactly when it exists and
`readdir` finds it non-empty. -/
theorem rollbackEntryRoot_mem_iff (bad : FPath → Bool) (fs : ProjFS)
    (root : FPath) (hroot : bad root = false) :
    root ∈ (rollbackEntryRoot bad fs root).1
      ↔ root ∈ fs ∧ readdirF fs root ≠ [] := by
  unfold rollbackEntryRoot
  by_cases he : pathExistsF fs root = true
  · rw [if_pos he]
    by_cases hl : (readdirF fs root).length = 0
    · rw [if_pos hl, if_neg (by simp [hroot])]
      simp only
      constructor
      · intro hmem
        exact absurd (List.prefix_refl root) (mem_removePath.mp hmem).2
      · intro hcon
        exact absurd (List.length_eq_zero.mp hl) hcon.2
    · rw [if_neg hl]
      simp only
      have hmem : root ∈ fs := by
        simpa only [pathExistsF, decide_eq_true_eq] using he
      constructor
      · intro _
        exact ⟨hmem, fun hnil => hl (by rw [hnil]; rfl)⟩
      · intro _; exact hmem
  · rw [if_neg he]
    have hnot : root ∉ fs := by
      simpa only [pathExistsF, decide_eq_true_eq] using he
    constructor
    · intro hmem; exact absurd hmem hnot
    · intro hcon; exact absurd hcon.1 hnot

/-- A `trackCreatedFile`/`trackCreatedDir` sequence applied to a stack
holding one entry appends the tracked paths, in call order, to that
entry. -/
theorem applyOps_single (ops : List TrackOp) : ∀ (root : FPath)
    (fl dl : List FPath),
    applyOps ops [⟨root, fl, dl⟩]
      = [⟨root, fl ++ filesOf ops, dl ++ dirsOf ops⟩] := by
  induction ops with
  | nil => intro root fl dl; simp [applyOps, filesOf, dirsOf]
  | cons op rest ih =>
    intro root fl dl
    cases op with
    | file p =>
      have hstep : applyOps (.file p :: rest) [(⟨root, fl, dl⟩ : RollbackInfo)]
          = applyOps rest [⟨root, fl ++ [p], dl⟩] := rfl
      rw [hstep, ih root (fl ++ [p]) dl]
      simp [filesOf, dirsOf, List.filterMap_cons]
    | dir p =>
      have hstep : applyOps (.dir p :: rest) [(⟨root, fl, dl⟩ : RollbackInfo)]
          = applyOps rest [⟨root, fl, dl ++ [p]⟩] := rfl
      rw [hstep, ih root fl (dl ++ [p])]
      simp [filesOf, dirsOf, List.filterMap_cons]

/-! ## C2 — best-effort granularity of rollback -/

/-- Counterexample to C2 as stated: the ledger entry tracks `p/f1` then
`p/f2`; removing `p/f1` fails.  The claim requires removal to continue
with the remaining items of the same entry, i.e. `p/f2` (existing,
removable) should be removed — but the single `try`/`catch` around the
whole entry aborts, and `p/f2` survives the rollback. -/
theorem rollback_best_effort_within_entry_cex :
    ["p", "f2"] ∈ entC2.createdFiles
    ∧ ["p", "f2"] ∈ fsC2
    ∧ badC2 ["p", "f2"] = false
    ∧ badC2 ["p", "f1"] = true
    ∧ ["p", "f1"] ∈ entC2.createdFiles
    ∧ ["p", "f2"] ∈ performRollback badC2 fsC2 [entC2] := by
  refine ⟨by decide, by decide, by decide, by decide, by decide, by decide⟩

/-- C2 (amended): a failure to remove one tracked item aborts the
remaining removals of that same ledger entry (it is reported, via the
per-entry catch); best-effort removal continues across ledger entries: an
entry none of whose own tracked paths fails has every tracked file and
directory removed, regardless of failures in the other entries. -/
theorem rollback_continues_across_entries (bad : FPath → Bool) (fs : ProjFS)
    (stack : List RollbackInfo) (e : RollbackInfo) (he : e ∈ stack)
    (hf : ∀ p ∈ e.createdFiles, bad p = false)
    (hd : ∀ p ∈ e.createdDirs, bad p = false) :
    ∀ p, (p ∈ e.createdFiles ∨ p ∈ e.createdDirs) →
      p ∉ performRollback bad fs stack := by
  intro p hp
  exact rollbackFold_entry bad stack.reverse e (List.mem_reverse.mpr he)
    hf hd fs p hp

/-- Witness for the amended C2: with the failing entry `entC2` processed
first (it is more recent), the clean entry `entW1`'s tracked file and
directory are still removed. -/
theorem rollback_continues_across_entries_witness :
    ["q", "g1"] ∉ performRollback badC2 fsW [entW1, entC2]
    ∧ ["q", "sub"] ∉ performRollback badC2 fsW [entW1, entC2] :=
  ⟨rollback_continues_across_entries badC2 fsW [entW1, entC2] entW1
      (by decide) (by decide) (by decide) ["q", "g1"] (Or.inl (by decide)),
    rollback_continues_across_entries badC2 fsW [entW1, entC2] entW1
      (by decide) (by decide) (by decide) ["q", "sub"] (Or.inr (by decide))⟩

/-! ## C3 — rollback as the inverse of tracking -/

/-- C3: for every sequence of `trackCreatedFile`/`trackCreatedDir` calls
after a checkpoint, and every project file system, `performRollback`
(files phase in creation order, then directories in reverse creation
order — as encoded in `rollbackPhases` — then the root check) removes
every tracked path, and the project root survives if and only if it still
exists and is non-empty after the two removal phases: a non-empty project
root is never force-deleted. -/
theorem rollback_inverse_of_tracking (root : FPath) (ops : List TrackOp)
    (fs : ProjFS) :
    (∀ p, p ∈ filesOf ops ∨ p ∈ dirsOf ops →
        p ∉ performRollback noFailure fs (applyOps ops (addRollbackPoint root [])))
    ∧ (root ∈ performRollback noFailure fs (applyOps ops (addRollbackPoint root []))
        ↔ root ∈ rollbackPhases noFailure fs ⟨root, filesOf ops, dirsOf ops⟩
          ∧ readdirF (rollbackPhases noFailure fs ⟨root, filesOf ops, dirsOf ops⟩)
              root ≠ []) := by
  have hled : applyOps ops (addRollbackPoint root [])
      = [⟨root, filesOf ops, dirsOf ops⟩] := by
    have h := applyOps_single ops root [] []
    simpa [addRollbackPoint] using h
  rw [hled, performRollback_single]
  have hgood : ∀ (l : List FPath), ∀ p ∈ l, noFailure p = false :=
    fun _ p _ => rfl
  constructor
  · intro p hp
    exact rollbackOne_removes noFailure fs _ (hgood _) (hgood _) p hp
  · rw [rollbackOne_eq noFailure fs _ (hgood _) (hgood _)]
    exact rollbackEntryRoot_mem_iff noFailure _ root rfl

/-- Witness for C3: a concrete tracked tree is fully removed, including
the root, which was emptied by the removal phases. -/
theorem rollback_inverse_of_tracking_witness :
    ["p", "src", "a.ts"]
        ∉ performRollback noFailure fsC3 (applyOps opsC3 (addRollbackPoint ["p"] []))
    ∧ ["p", "src"]
        ∉ performRollback noFailure fsC3 (applyOps opsC3 (addRollbackPoint ["p"] []))
    ∧ ["p"]
        ∉ performRollback noFailure fsC3 (applyOps opsC3 (addRollbackPoint ["p"] [])) :=
  ⟨(rollback_inverse_of_tracking ["p"] opsC3 fsC3).1 _ (Or.inl (by decide)),
    (rollback_inverse_of_tracking ["p"] opsC3 fsC3).1 _ (Or.inr (by decide)),
    fun hr =>
      absurd ((rollback_inverse_of_tracking ["p"] opsC3 fsC3).2.mp hr) (by decide)⟩

/-! ## C4 — stop at first failure, roll back, re-throw -/

/-- Steps that all succeed pass control to the remainder of the list. -/
theorem runSteps_append_ok (pre : List GStep) :
    ∀ (rest : List GStep) (st0 stPre : GenState),
    runSteps pre st0 = (stPre, none) →
    runSteps (pre ++ rest) st0 = runSteps rest stPre := by
  induction pre with
  | nil =>
    intro rest st0 stPre h
    simp only [runSteps] at h
    rw [Prod.mk.injEq] at h
    rw [List.nil_append, h.1]
  | cons a pre ih =>
    intro rest st0 stPre h
    rw [List.cons_append, runSteps]
    rw [runSteps] at h
    rcases ha : a.action st0 with ⟨st1, err⟩
    cases err with
    | some er => rw [ha] at h; simp at h
    | none => rw [ha] at h; exact ih rest st1 stPre h

/-- A failing step stops the loop at once with its own error and the
state it reached. -/
theorem runSteps_cons_fail (s : GStep) (post : List GStep)
    (st stF : GenState) (e : String) (hs : s.action st = (stF, some e)) :
    runSteps (s :: post) st = (stF, some e) := by
  rw [runSteps, hs]

/-- C4: `generateProjectStructure` runs its steps in order and stops at
the first failing step: for every decomposition into succeeding steps
`pre`, a failing step `s` (error `e`, reached state `stF`) and arbitrary
remaining steps `post` (which are never run — the result does not depend
on them), the accumulated ledger is rolled back (`handleError`, which
performs the best-effort rollback and never throws, since each entry's
removal errors are caught) and the original error `e` — not any rollback
error — is re-thrown to the caller after the rollback completes. -/
theorem generateProjectStructure_stops_and_rethrows (bad : FPath → Bool)
    (pre : List GStep) (s : GStep) (post : List GStep) (projectPath : FPath)
    (st stPre stF : GenState) (e : String)
    (hpre : runSteps pre { st with stack := addRollbackPoint projectPath st.stack }
      = (stPre, none))
    (hs : s.action stPre = (stF, some e)) :
    runSteps (pre ++ s :: post)
        { st with stack := addRollbackPoint projectPath st.stack }
      = (stF, some e)
    ∧ generateProjectStructure bad (pre ++ s :: post) projectPath st
      = ({ fs := performRollback bad stF.fs stF.stack, stack := [] }, some e) := by
  have h1 : runSteps (pre ++ s :: post)
      { st with stack := addRollbackPoint projectPath st.stack } = (stF, some e) := by
    rw [runSteps_append_ok pre (s :: post) _ stPre hpre]
    exact runSteps_cons_fail s post stPre stF e hs
  refine ⟨h1, ?_⟩
  simp only [generateProjectStructure, h1, handleError]

/-- Witness for C4: a tracking step succeeds, the next step fails with a
missing-template-directory error, a third step never runs; the result is
the original error and a fully rolled-back project directory (the tracked
file removed, the emptied root removed). -/
theorem generateProjectStructure_stops_and_rethrows_witness :
    generateProjectStructure noFailure [c4stepTrack, c4stepFail, c4stepTrack]
        ["proj"] ⟨[["proj"]], []⟩
      = (⟨[], []⟩, some "Template directory not found: prisma") := by
  have h := (generateProjectStructure_stops_and_rethrows noFailure [c4stepTrack]
    c4stepFail [c4stepTrack] ["proj"] ⟨[["proj"]], []⟩ c4stPre c4stPre
    "Template directory not found: prisma" rfl rfl).2
  exact h.trans (by decide)

/-! ## C5 — skipped files produce no output and are not tracked -/

/-- C5: every file written by `copyDirectoryRecursive` and every tracked
directory comes from a source item the skip predicate did not exclude for
this configuration; excluded items contribute no write and no ledger
entry (written files are exactly the tracked files; see `WriteRec`). -/
theorem copyDirectory_never_writes_skipped
    (render : String → TemplateData → String) (data : TemplateData)
    (entries : List TEntry) (sourcePath targetPath : String) :
    (∀ w ∈ (copyDirectoryRecursive render data entries sourcePath targetPath).writes,
        shouldSkipFile w.item w.srcDir data = false)
    ∧ (∀ dr ∈ (copyDirectoryRecursive render data entries sourcePath targetPath).trackedDirs,
        shouldSkipFile dr.item dr.srcDir data = false) := by
  induction entries, sourcePath, targetPath using copyDirectoryRecursive.induct render data with
  | case1 sp tp =>
    constructor <;> intro x hx <;> simp [copyDirectoryRecursive] at hx
  | case2 name bytes rest sp tp hskip ih =>
    constructor <;> intro x hx <;>
      simp only [copyDirectoryRecursive, if_pos hskip] at hx
    · exact ih.1 x hx
    · exact ih.2 x hx
  | case3 name bytes rest sp tp hskip ih =>
    have hskipF : shouldSkipFile name sp data = false := by
      cases hb : shouldSkipFile name sp data
      · rfl
      · exact absurd hb hskip
    constructor <;> intro x hx <;>
      simp only [copyDirectoryRecursive, if_neg hskip] at hx
    · rcases List.mem_cons.mp hx with rfl | hx2
      · by_cases hejs : strEndsWith name ".ejs" = true
        · rw [if_pos hejs]; exact hskipF
        · rw [if_neg hejs]; exact hskipF
      · exact ih.1 x hx2
    · exact ih.2 x hx
  | case4 name children rest sp tp hskip ih =>
    constructor <;> intro x hx <;>
      simp only [copyDirectoryRecursive, if_pos hskip] at hx
    · exact ih.1 x hx
    · exact ih.2 x hx
  | case5 name children rest sp tp hskip hdock ih =>
    constructor <;> intro x hx <;>
      simp only [copyDirectoryRecursive, if_neg hskip, hdock, if_true] at hx
    · exact ih.1 x hx
    · exact ih.2 x hx
  | case6 name children rest sp tp hskip hdock ihsub ih =>
    have hskipF : shouldSkipFile name sp data = false := by
      cases hb : shouldSkipFile name sp data
      · rfl
      · exact absurd hb hskip
    constructor <;> intro x hx <;>
      simp only [copyDirectoryRecursive, if_neg hskip, if_neg hdock] at hx
    · rcases List.mem_append.mp hx with hx2 | hx2
      · exact ihsub.1 x hx2
      · exact ih.1 x hx2
    · rcases List.mem_cons.mp hx with rfl | hx2
      · exact hskipF
      · rcases List.mem_append.mp hx2 with hx3 | hx3
        · exact ihsub.2 x hx3
        · exact ih.2 x hx3

/-- Concrete evaluation of the copy on `c5tree` (the recursion is
well-founded, so its equations are applied by `simp` and the residual
conditions decided). -/
theorem c5tree_copy_eval :
    copyDirectoryRecursive idRender demoData c5tree "tb/base" "proj" =
      ⟨[⟨"tb/base", "docker-compose.postgres.yml.ejs",
          "proj/docker-compose.postgres.yml", "pg"⟩,
        ⟨"tb/base", "logo.png", "proj/logo.png", "bin"⟩,
        ⟨"tb/base/src", "app.ts.ejs", "proj/src/app.ts", "app"⟩],
       [⟨"tb/base", "src", "proj/src"⟩]⟩ := by
  simp [copyDirectoryRecursive, c5tree]
  decide

/-- Witness for C5 on a concrete base tree with `demoData`
(database = postgres): the postgres compose template is written (and the
theorem yields that its source passed the skip predicate), the mysql
variant is skipped — it appears in no write — and the nested tracked
directory also passed the predicate. -/
theorem copyDirectory_never_writes_skipped_witness :
    (⟨"tb/base", "docker-compose.postgres.yml.ejs",
        "proj/docker-compose.postgres.yml", "pg"⟩ : WriteRec)
      ∈ (copyDirectoryRecursive idRender demoData c5tree "tb/base" "proj").writes
    ∧ shouldSkipFile "docker-compose.postgres.yml.ejs" "tb/base" demoData = false
    ∧ shouldSkipFile "src" "tb/base" demoData = false
    ∧ ((copyDirectoryRecursive idRender demoData c5tree "tb/base" "proj").writes.all
        (fun w => w.item != "docker-compose.mysql.yml.ejs")) = true :=
  ⟨by rw [c5tree_copy_eval]; decide,
    (copyDirectory_never_writes_skipped idRender demoData c5tree "tb/base" "proj").1
      ⟨"tb/base", "docker-compose.postgres.yml.ejs",
        "proj/docker-compose.postgres.yml", "pg"⟩ (by rw [c5tree_copy_eval]; decide),
    (copyDirectory_never_writes_skipped idRender demoData c5tree "tb/base" "proj").2
      ⟨"tb/base", "src", "proj/src"⟩ (by rw [c5tree_copy_eval]; decide),
    by rw [c5tree_copy_eval]; decide⟩

/-! ## C6 — manifest merge invariant -/

theorem alookup_append {α : Type} (k : String) (l1 l2 : List (String × α)) :
    alookup k (l1 ++ l2)
      = match alookup k l1 with
        | some v => some v
        | none => alookup k l2 := by
  induction l1 with
  | nil => simp [alookup]
  | cons kv rest ih =>
    rcases kv with ⟨k1, v1⟩
    by_cases h : k1 = k
    · simp [alookup, h]
    · simp [alookup, h, ih]

theorem alookup_map_update (k : String) (a b : List (String × String)) :
    alookup k (a.map (overrideEntry b))
      = match alookup k a with
        | some v =>
          (match alookup k b with
            | some w => some w
            | none => some v)
        | none => none := by
  induction a with
  | nil => simp [alookup]
  | cons kv rest ih =>
    rcases kv with ⟨k1, v1⟩
    by_cases h : k1 = k
    · subst h
      cases hb : alookup k1 b with
      | some w => simp [alookup, overrideEntry, hb]
      | none => simp [alookup, overrideEntry, hb]
    · cases hb : alookup k1 b with
      | some w => simp [alookup, overrideEntry, h, hb, ih]
      | none => simp [alookup, overrideEntry, h, hb, ih]

theorem alookup_filter_isNone (k : String) (a b : List (String × String)) :
    alookup k (b.filter fun kv => (alookup kv.1 a).isNone)
      = if (alookup k a).isNone = true then alookup k b else none := by
  induction b with
  | nil => simp [alookup]
  | cons kv rest ih =>
    rcases kv with ⟨k1, v1⟩
    by_cases hno : (alookup k1 a).isNone = true
    · rw [List.filter_cons_of_pos (by simpa using hno)]
      by_cases h : k1 = k
      · subst h
        simp [alookup, hno]
      · simp [alookup, h, ih]
    · rw [List.filter_cons_of_neg (by simpa using hno)]
      by_cases h : k1 = k
      · subst h
        have hF : (alookup k1 a).isNone = false := by
          revert hno; cases (alookup k1 a).isNone <;> simp
        simp [alookup, ih, hF]
      · simp [alookup, h, ih]

/-- The spread `{...a, ...b}` looks up as: `b`'s binding wins, otherwise
`a`'s. -/
theorem alookup_spreadMerge (a b : List (String × String)) (k : String) :
    alookup k (spreadMerge a b)
      = match alookup k b with
        | some w => some w
        | none => alookup k a := by
  unfold spreadMerge
  rw [alookup_append, alookup_map_update, alookup_filter_isNone]
  cases ha : alookup k a with
  | some v => cases hb : alookup k b <;> simp [ha, hb]
  | none => cases hb : alookup k b <;> simp [ha, hb]

theorem setEntry_eq_self (k : String) (v v1 : JVal) :
    setEntry k v (k, v1) = (k, v) := by
  simp [setEntry]

theorem setEntry_eq_other (k : String) (v : JVal) (k1 : String) (v1 : JVal)
    (h : k1 ≠ k) : setEntry k v (k1, v1) = (k1, v1) := by
  simp [setEntry, h]

theorem alookup_map_setter (k : String) (v : JVal) (m : Manifest) :
    alookup k (m.map (setEntry k v))
      = if (alookup k m).isSome = true then some v else none := by
  induction m with
  | nil => simp [alookup]
  | cons kv rest ih =>
    rcases kv with ⟨k1, v1⟩
    rw [List.map_cons]
    by_cases h : k1 = k
    · subst h
      rw [setEntry_eq_self]
      simp [alookup_cons, ih]
    · rw [setEntry_eq_other k v k1 v1 h]
      simp [alookup_cons, h, ih]

theorem alookup_map_setter_other (k : String) (v : JVal) (m : Manifest)
    (k2 : String) (hne : k2 ≠ k) :
    alookup k2 (m.map (setEntry k v))
      = alookup k2 m := by
  induction m with
  | nil => rfl
  | cons kv rest ih =>
    rcases kv with ⟨k1, v1⟩
    rw [List.map_cons]
    by_cases h1 : k1 = k
    · subst h1
      rw [setEntry_eq_self]
      simp [alookup_cons, Ne.symm hne, ih]
    · rw [setEntry_eq_other k v k1 v1 h1]
      simp [alookup_cons, ih]

theorem alookup_setField_self (k : String) (v : JVal) (m : Manifest) :
    alookup k (setField k v m) = some v := by
  unfold setField
  by_cases h : (alookup k m).isSome = true
  · rw [if_pos h, alookup_map_setter, if_pos h]
  · rw [if_neg h, alookup_append]
    have hm : alookup k m = none := by
      revert h; cases alookup k m <;> simp
    rw [hm]
    simp [alookup]

theorem alookup_setField_other (k : String) (v : JVal) (m : Manifest)
    (k2 : String) (hne : k2 ≠ k) :
    alookup k2 (setField k v m) = alookup k2 m := by
  unfold setField
  by_cases h : (alookup k m).isSome = true
  · rw [if_pos h, alookup_map_setter_other k v m k2 hne]
  · rw [if_neg h, alookup_append]
    cases hm : alookup k2 m with
    | some w => simp
    | none => simp [alookup, Ne.symm hne]

theorem alookup_mergeSection_self (adds m : Manifest) (name : String)
    (o : List (String × String)) (h : alookup name adds = some (.obj o)) :
    alookup name (mergeSection adds m name)
      = some (.obj (spreadMerge (sectionOf m name) o)) := by
  unfold mergeSection
  rw [h]
  exact alookup_setField_self name _ m

theorem alookup_mergeSection_other (adds m : Manifest) (name k : String)
    (hne : k ≠ name) :
    alookup k (mergeSection adds m name) = alookup k m := by
  unfold mergeSection
  cases ha : alookup name adds with
  | none => rfl
  | some jv =>
    cases jv with
    | obj o => exact alookup_setField_other name _ m k hne
    | prim s => rfl

theorem sectionOf_mergeSection_self (adds m : Manifest) (name : String)
    (o : List (String × String)) (h : alookup name adds = some (.obj o)) :
    sectionOf (mergeSection adds m name) name
      = spreadMerge (sectionOf m name) o := by
  unfold sectionOf
  rw [alookup_mergeSection_self adds m name o h]
  rfl

theorem sectionOf_mergeSection_other (adds m : Manifest) (name k : String)
    (hne : k ≠ name) :
    sectionOf (mergeSection adds m name) k = sectionOf m k := by
  unfold sectionOf
  rw [alookup_mergeSection_other adds m name k hne]

theorem mergePackageJson_eq (base adds : Manifest) :
    mergePackageJson base adds
      = mergeSection adds
          (mergeSection adds (mergeSection adds base "dependencies")
            "devDependencies")
          "scripts" := rfl

/-- Counterexample to C6 as stated: an additions document carrying only
the top-level key `keywords` (parseable, present only in the additions);
the claim requires the merged manifest to contain it, but the merge only
consults `dependencies`, `devDependencies` and `scripts`, and the key is
dropped. -/
theorem merge_invariant_cex :
    alookup "keywords" c6adds = some (.prim "cli")
    ∧ mergePackageJson [] c6adds = []
    ∧ alookup "keywords" (mergePackageJson [] c6adds) = none :=
  ⟨rfl, rfl, rfl⟩

/-- C6 (amended): the merge touches exactly the three sections
`dependencies`, `devDependencies` and `scripts`.  Every other top-level
key of the base is preserved untouched and every other top-level key of
the additions document is ignored; within each of the three sections
(when present in the additions document as an object), keys only in the
additions section are added, keys in both take the additions' value, and
keys only in the base section are preserved. -/
theorem merge_section_invariant (base adds : Manifest) :
    (∀ k, k ∉ specialSections →
        alookup k (mergePackageJson base adds) = alookup k base)
    ∧ (∀ name ∈ specialSections, ∀ o, alookup name adds = some (.obj o) →
        ∀ k2, alookup k2 (sectionOf (mergePackageJson base adds) name)
          = match alookup k2 o with
            | some w => some w
            | none => alookup k2 (sectionOf base name)) := by
  constructor
  · intro k hk
    simp only [specialSections, List.mem_cons, List.not_mem_nil, or_false,
      not_or] at hk
    rw [mergePackageJson_eq,
      alookup_mergeSection_other adds _ "scripts" k hk.2.2,
      alookup_mergeSection_other adds _ "devDependencies" k hk.2.1,
      alookup_mergeSection_other adds _ "dependencies" k hk.1]
  · intro name hname o ho k2
    simp only [specialSections, List.mem_cons, List.not_mem_nil, or_false] at hname
    rcases hname with rfl | rfl | rfl
    · rw [mergePackageJson_eq,
        sectionOf_mergeSection_other adds _ "scripts" "dependencies" (by decide),
        sectionOf_mergeSection_other adds _ "devDependencies" "dependencies" (by decide),
        sectionOf_mergeSection_self adds base "dependencies" o ho,
        alookup_spreadMerge]
    · rw [mergePackageJson_eq,
        sectionOf_mergeSection_other adds _ "scripts" "devDependencies" (by decide),
        sectionOf_mergeSection_self adds _ "devDependencies" o ho,
        sectionOf_mergeSection_other adds base "dependencies" "devDependencies" (by decide),
        alookup_spreadMerge]
    · rw [mergePackageJson_eq,
        sectionOf_mergeSection_self adds _ "scripts" o ho,
        sectionOf_mergeSection_other adds _ "devDependencies" "scripts" (by decide),
        sectionOf_mergeSection_other adds base "dependencies" "scripts" (by decide),
        alookup_spreadMerge]

/-- Witness for the amended C6: the non-section field `name` is
preserved; in the merged `dependencies` section the overlapping key `b`
takes the additions' value, the base-only key `a` is preserved and the
additions-only key `c` is added. -/
theorem merge_section_invariant_witness :
    alookup "name" (mergePackageJson c6base c6addsDeps) = some (.prim "app")
    ∧ alookup "b" (sectionOf (mergePackageJson c6base c6addsDeps) "dependencies")
        = some "2"
    ∧ alookup "a" (sectionOf (mergePackageJson c6base c6addsDeps) "dependencies")
        = some "1"
    ∧ alookup "c" (sectionOf (mergePackageJson c6base c6addsDeps) "dependencies")
        = some "3" :=
  ⟨((merge_section_invariant c6base c6addsDeps).1 "name" (by decide)).trans rfl,
    (((merge_section_invariant c6base c6addsDeps).2 "dependencies" (by decide)
      [("b", "2"), ("c", "3")] rfl) "b").trans rfl,
    (((merge_section_invariant c6base c6addsDeps).2 "dependencies" (by decide)
      [("b", "2"), ("c", "3")] rfl) "a").trans rfl,
    (((merge_section_invariant c6base c6addsDeps).2 "dependencies" (by decide)
      [("b", "2"), ("c", "3")] rfl) "c").trans rfl⟩

end Nestkick
